import Mathlib

/-!
Shallow embedding of the ordered-collection management core of the
Marseille Immobilier directory application (Flask + SQLAlchemy).

The persisted store is modelled as plain Lean lists of records, one list
per relational table (`models.py`).  Each route handler of `routes.py` /
`admin_routes.py` that the claims touch is translated into a pure Lean
function from the pre-state (plus the request inputs) to the post-state
together with an outcome value.  Conventions:

* Form fields arrive already `.strip()`-ed, exactly as the handlers read
  them; a missing/unparsable numeric field is `none` (Flask's
  `request.form.get(..., type=...)` convention).
* `commitOk : Bool` models whether `db.session.commit()` succeeds; on
  failure the handler's `except` branch rolls the transaction back, so the
  post-state equals the pre-state.
* An uploaded file is a pair of its client filename (used by
  `allowed_file`) and the result of `save_uploaded_file` (`none` models a
  storage failure, in which case the handler skips or clears the field).
* `created_at` / `updated_at` timestamps carry no logic in any claim and
  are omitted from the records.
* Plan prices are modelled as integers: the handlers only test presence
  of the parsed number and store it verbatim, so exact integer inputs
  such as `-1` faithfully represent the corresponding float inputs.
-/

/-- Row of the `plan` table (`models.py`, class `Plan`). -/
structure Plan where
  id : Nat
  name : String
  price : Int
  billingPeriod : String
  description : String
  isActive : Bool
deriving DecidableEq

/-- Row of the `agency` table (`models.py`, class `Agency`).  `planId` is the
nullable foreign key `plan_id`. -/
structure Agency where
  id : Nat
  name : String
  city : String
  website : String
  logoFilename : Option String
  coverFilename : Option String
  description : String
  planId : Option Nat
  isActive : Bool
  sortOrder : Int
deriving DecidableEq

/-- Row of the `agency_image` table (`models.py`, class `AgencyImage`). -/
structure AgencyImage where
  id : Nat
  agencyId : Nat
  imageFilename : String
  altText : String
  isPrimary : Bool
  sortOrder : Int
deriving DecidableEq

/-- Row of the `carousel_item` table (`models.py`, class `CarouselItem`). -/
structure CarouselItem where
  id : Nat
  imageFilename : String
  linkUrl : String
  altText : String
  isActive : Bool
  sortOrder : Int
deriving DecidableEq

/-- Row of the `contact_message` table (`models.py`, class `ContactMessage`). -/
structure ContactMessage where
  id : Nat
  name : String
  email : String
  phone : String
  subject : String
  message : String
  isRead : Bool
deriving DecidableEq

/-- An uploaded file as seen by a handler: the client-supplied filename
(checked by `allowed_file`) and the value returned by
`save_uploaded_file` (`none` = storage failure). -/
structure UploadFile where
  filename : String
  savedName : Option String
deriving DecidableEq

/-- ASCII lower-casing of one character, the fragment of Python's
`str.lower()` relevant to extension matching (`utils.py`,
`allowed_file`): only `A`-`Z` are mapped, all other characters kept. -/
def lowerChar (c : Char) : Char :=
  if 'A' ≤ c ∧ c ≤ 'Z' then Char.ofNat (c.toNat + 32) else c

/-- Suffix of a character list after its last `.`, i.e. Python's
`filename.rsplit('.', 1)[1]`; `none` when no dot occurs (the
`'.' in filename` guard of `allowed_file`). -/
def afterLastDot : List Char → Option (List Char)
  | [] => none
  | c :: rest =>
    match afterLastDot rest with
    | some s => some s
    | none => if c = '.' then some rest else none

/-- The `ALLOWED_EXTENSIONS` set of `utils.py`. -/
def allowedExtensions : List (List Char) :=
  ["png".toList, "jpg".toList, "jpeg".toList, "gif".toList, "svg".toList,
   "webp".toList]

/-- Translation of `utils.allowed_file`: the filename contains a dot and the
lower-cased text after the last dot is an allowed image extension. -/
def allowed_file (filename : String) : Bool :=
  match afterLastDot filename.toList with
  | none => false
  | some ext => allowedExtensions.contains (ext.map lowerChar)

/-- Character-list version of Python's `str.startswith`. -/
def listStarts : List Char → List Char → Bool
  | _, [] => true
  | [], _ :: _ => false
  | c :: cs, d :: ds => c = d && listStarts cs ds

/-- Python's `website.startswith(pat)` on strings. -/
def startswith (s pat : String) : Bool :=
  listStarts s.toList pat.toList

/-- Website normalization of `admin_routes.py` lines 106-107 and 170-171:
`if not website.startswith(('http://', 'https://')): website = 'https://' +
website`. -/
def normalizeWebsite (website : String) : String :=
  if startswith website "http://" || startswith website "https://" then website
  else "https://" ++ website

/-- Inner join of `routes.index` (`Agency.query.join(Plan)`) filtered on
`Agency.is_active == True`: one `(agency, plan)` pair per active agency whose
`plan_id` matches an existing plan row.  An agency whose `plan_id` is NULL, or
references no plan row, produces no joined row. -/
def joinActivePlan (agencies : List Agency) (plans : List Plan) :
    List (Agency × Plan) :=
  agencies.filterMap fun a =>
    match a.planId with
    | none => none
    | some pid =>
      match plans.find? (fun p => p.id == pid) with
      | none => none
      | some p => if a.isActive then some (a, p) else none

/-- The ORDER BY key of `routes.index`: `Plan.name.desc(), Agency.sort_order.asc()`
as a boolean total order on joined rows. -/
def publicOrderLe (x y : Agency × Plan) : Bool :=
  decide (y.2.name < x.2.name) ||
    (x.2.name == y.2.name && decide (x.1.sortOrder ≤ y.1.sortOrder))

/-- Joined rows of the homepage query in result order. -/
def listForPublicSorted (agencies : List Agency) (plans : List Plan) :
    List (Agency × Plan) :=
  (joinActivePlan agencies plans).mergeSort publicOrderLe

/-- The agency listing computed by `routes.index` lines 22-25: the sorted
inner join, projected back to agency rows. -/
def listForPublic (agencies : List Agency) (plans : List Plan) : List Agency :=
  (listForPublicSorted agencies plans).map Prod.fst

/-- Stripped form fields of the public contact form (`routes.contact`). -/
structure ContactForm where
  name : String
  email : String
  phone : String
  subject : String
  message : String
deriving DecidableEq

/-- User-visible outcome of a POST to `routes.contact`. -/
inductive ContactOutcome
  | missingFields
  | success
  | emailWarning
  | saveError
deriving DecidableEq

/-- Translation of the POST branch of `routes.contact` (lines 51-87): after
the required-field check the message row is added and committed; only then is
`send_contact_email` attempted, and its result selects the flash message
without touching the stored row.  `send_contact_email` catches all its own
exceptions and returns a boolean, modelled by `emailOk`. -/
def contact (msgs : List ContactMessage) (f : ContactForm) (emailOk : Bool)
    (commitOk : Bool) (newId : Nat) : List ContactMessage × ContactOutcome :=
  if f.name = "" ∨ f.email = "" ∨ f.subject = "" ∨ f.message = "" then
    (msgs, .missingFields)
  else if commitOk then
    (msgs ++ [{ id := newId, name := f.name, email := f.email, phone := f.phone,
                subject := f.subject, message := f.message, isRead := false }],
     if emailOk then .success else .emailWarning)
  else
    (msgs, .saveError)

/-- Error outcomes shared by the admin mutation handlers. -/
inductive AdminError
  | missingFields
  | notFound
  | saveError
deriving DecidableEq

/-- Stripped form fields of the agency create/edit form. -/
structure AgencyForm where
  name : String
  city : String
  website : String
  description : String
  planId : Option Nat
deriving DecidableEq

/-- File-field assignment shared by `add_agency` / `edit_agency`: when a file
part is present, non-empty and of an allowed type, the stored field becomes
whatever `save_uploaded_file` returned (possibly `None` on storage failure);
otherwise the previous value is kept. -/
def uploadedField (upload : Option UploadFile) (old : Option String) :
    Option String :=
  match upload with
  | none => old
  | some f =>
    if f.filename ≠ "" ∧ allowed_file f.filename then f.savedName else old

/-- The `SELECT max(agency.sort_order)` of `add_agency` line 124 combined with
the Python `or 0`: the scalar is NULL exactly when the table is empty, and
`0 or 0` equals `0`, so the expression is the maximum over all rows, `0` when
there are none. -/
def maxSortOrderOr0 (agencies : List Agency) : Int :=
  match agencies.map Agency.sortOrder with
  | [] => 0
  | x :: xs => xs.foldl max x

/-- Translation of the POST branch of `admin_routes.add_agency` (lines
94-144): required-field validation, website normalization, optional logo and
cover uploads, and `sort_order = max_order + 1`. -/
def add_agency (agencies : List Agency) (f : AgencyForm)
    (logo cover : Option UploadFile) (newId : Nat) (commitOk : Bool) :
    Except AdminError (List Agency) :=
  if f.name = "" ∨ f.city = "" ∨ f.website = "" then .error .missingFields
  else if commitOk then
    .ok (agencies ++
      [{ id := newId, name := f.name, city := f.city,
         website := normalizeWebsite f.website,
         logoFilename := uploadedField logo none,
         coverFilename := uploadedField cover none,
         description := f.description, planId := f.planId,
         isActive := true, sortOrder := maxSortOrderOr0 agencies + 1 }])
  else .error .saveError

/-- Gallery-append loop of `edit_agency` lines 197-209.  The SQLAlchemy
relationship `agency.images` is lazily loaded on its first access and the new
rows only set the foreign-key column, so the cached collection never grows
during the request: every appended row receives `sort_order = cachedCount`,
the pre-request image count of the agency, and `is_primary` stays at its
column default `False`. -/
def editGalleryLoop (aid : Nat) (agencyName : String) (cachedCount : Nat) :
    List AgencyImage → Nat → List UploadFile → List AgencyImage
  | images, _, [] => images
  | images, nextId, f :: rest =>
    if f.filename ≠ "" ∧ allowed_file f.filename then
      match f.savedName with
      | some saved =>
        editGalleryLoop aid agencyName cachedCount
          (images ++
            [{ id := nextId, agencyId := aid, imageFilename := saved,
               altText := "Imagen de " ++ agencyName, isPrimary := false,
               sortOrder := Int.ofNat cachedCount }])
          (nextId + 1) rest
      | none => editGalleryLoop aid agencyName cachedCount images nextId rest
    else editGalleryLoop aid agencyName cachedCount images nextId rest

/-- Translation of the POST branch of `admin_routes.edit_agency` (lines
149-218).  Field assignments made before a failed validation are never
committed (the request-scoped session is rolled back), so the validation
failure leaves the state unchanged. -/
def edit_agency (agencies : List Agency) (images : List AgencyImage)
    (aid : Nat) (f : AgencyForm) (isActive : Bool)
    (logo cover : Option UploadFile) (gallery : List UploadFile)
    (nextImageId : Nat) (commitOk : Bool) :
    Except AdminError (List Agency × List AgencyImage) :=
  match agencies.find? (fun a => a.id == aid) with
  | none => .error .notFound
  | some _ =>
    if f.name = "" ∨ f.city = "" ∨ f.website = "" then .error .missingFields
    else if commitOk then
      .ok (agencies.map (fun a =>
            if a.id == aid then
              { a with
                name := f.name, city := f.city,
                website := normalizeWebsite f.website,
                description := f.description, planId := f.planId,
                isActive := isActive,
                logoFilename := uploadedField logo a.logoFilename,
                coverFilename := uploadedField cover a.coverFilename }
            else a),
          editGalleryLoop aid f.name
            ((images.filter (fun i => i.agencyId == aid)).length)
            images nextImageId gallery)
    else .error .saveError

/-- The reorder loop shared by `reorder_agencies` (lines 259-262),
`reorder_carousel` (lines 454-457): `for index, id in enumerate(ids):` fetch
the row by primary key and, when it exists, set its `sort_order` to the
enumeration index. -/
def reorderLoop {α : Type} (getId : α → Nat) (setOrd : Int → α → α) :
    List α → Nat → List Nat → List α
  | items, _, [] => items
  | items, index, i :: rest =>
    reorderLoop getId setOrd
      (items.map fun a => if getId a == i then setOrd (Int.ofNat index) a else a)
      (index + 1) rest

/-- Translation of `admin_routes.reorder_agencies` (lines 252-269). -/
def reorder_agencies (agencies : List Agency) (ids : List Nat)
    (commitOk : Bool) : Except AdminError (List Agency) :=
  if commitOk then
    .ok (reorderLoop Agency.id (fun o a => { a with sortOrder := o }) agencies 0 ids)
  else .error .saveError

/-- Translation of `admin_routes.reorder_carousel` (lines 447-464). -/
def reorder_carousel (items : List CarouselItem) (ids : List Nat)
    (commitOk : Bool) : Except AdminError (List CarouselItem) :=
  if commitOk then
    .ok (reorderLoop CarouselItem.id (fun o c => { c with sortOrder := o }) items 0 ids)
  else .error .saveError

/-- Outcome of `set_primary_agency_image`. -/
inductive SetPrimaryOutcome
  | notFound
  | success
  | saveError
deriving DecidableEq

/-- Translation of `admin_routes.set_primary_agency_image` (lines 548-568):
one bulk UPDATE clears `is_primary` on every image of the target's agency,
then the target row is set primary; both writes commit together. -/
def set_primary_agency_image (images : List AgencyImage) (imageId : Nat)
    (commitOk : Bool) : SetPrimaryOutcome × List AgencyImage :=
  match images.find? (fun i => i.id == imageId) with
  | none => (.notFound, images)
  | some target =>
    if commitOk then
      (.success, images.map fun i =>
        if i.id == imageId then { i with isPrimary := true }
        else if i.agencyId == target.agencyId then { i with isPrimary := false }
        else i)
    else (.saveError, images)

/-- Outcome of `add_agency_images`. -/
inductive AddImagesOutcome
  | notFound
  | noImage
  | added (count : Nat)
  | noValidImages
  | saveError
deriving DecidableEq

/-- Upload loop of `add_agency_images` lines 494-509.  `sort_order` comes from
a fresh `count()` query each iteration (auto-flush makes rows added earlier in
the request visible), while `is_primary` comes from `if not agency.images:`;
that relationship collection is loaded once — before any row of this request
is visible — and the new rows only set the foreign-key column, so the cached
emptiness test `galleryWasEmpty` keeps its pre-request value for the whole
loop. -/
def addImagesLoop (aid : Nat) (alt : String) (galleryWasEmpty : Bool) :
    List AgencyImage → Nat → List UploadFile → List AgencyImage
  | images, _, [] => images
  | images, nextId, f :: rest =>
    if f.filename ≠ "" ∧ allowed_file f.filename then
      match f.savedName with
      | some saved =>
        addImagesLoop aid alt galleryWasEmpty
          (images ++
            [{ id := nextId, agencyId := aid, imageFilename := saved,
               altText := alt, isPrimary := galleryWasEmpty,
               sortOrder := Int.ofNat (images.countP (fun i => i.agencyId == aid)) }])
          (nextId + 1) rest
      | none => addImagesLoop aid alt galleryWasEmpty images nextId rest
    else addImagesLoop aid alt galleryWasEmpty images nextId rest

/-- Translation of `admin_routes.add_agency_images` (lines 480-522).  `files =
none` models a POST without an `images` part; `altText = none` models an
absent `alt_text` field (defaulted to `Imagen de <agency name>`). -/
def add_agency_images (agencies : List Agency) (images : List AgencyImage)
    (aid : Nat) (altText : Option String) (files : Option (List UploadFile))
    (nextImageId : Nat) (commitOk : Bool) :
    AddImagesOutcome × List AgencyImage :=
  match agencies.find? (fun a => a.id == aid) with
  | none => (.notFound, images)
  | some agency =>
    match files with
    | none => (.noImage, images)
    | some fs =>
      let galleryWasEmpty := (images.filter (fun i => i.agencyId == aid)).isEmpty
      let result := addImagesLoop aid (altText.getD ("Imagen de " ++ agency.name))
        galleryWasEmpty images nextImageId fs
      let addedCount := result.length - images.length
      if 0 < addedCount then
        if commitOk then (.added addedCount, result) else (.saveError, images)
      else (.noValidImages, images)

/-- Outcome of `add_carousel_item`. -/
inductive AddCarouselOutcome
  | noImage
  | badFormat
  | saveFailed
  | success
  | commitFailed
deriving DecidableEq

/-- Translation of `admin_routes.add_carousel_item` (lines 363-404): the new
item is appended with `sort_order = CarouselItem.query.count()`, the number of
carousel rows (of any active flag) existing before the insert. -/
def add_carousel_item (items : List CarouselItem) (image : Option UploadFile)
    (linkUrl altText : String) (newId : Nat) (commitOk : Bool) :
    AddCarouselOutcome × List CarouselItem :=
  match image with
  | none => (.noImage, items)
  | some f =>
    if f.filename = "" then (.noImage, items)
    else if ¬ allowed_file f.filename then (.badFormat, items)
    else
      match f.savedName with
      | none => (.saveFailed, items)
      | some saved =>
        if commitOk then
          (.success, items ++
            [{ id := newId, imageFilename := saved,
               linkUrl := linkUrl, altText := altText, isActive := true,
               sortOrder := Int.ofNat items.length }])
        else (.commitFailed, items)

/-- Form fields of the plan create form; `price` is
`request.form.get('price', type=float)`, so a missing or unparsable price is
`none`. -/
structure PlanForm where
  name : String
  price : Option Int
  billingPeriod : String
  description : String
deriving DecidableEq

/-- Outcome of `add_plan`. -/
inductive AddPlanOutcome
  | missingFields
  | nameExists
  | success
  | saveError
deriving DecidableEq

/-- Translation of the POST branch of `admin_routes.add_plan` (lines 604-634):
the only price validation is `price is None`; the parsed number is stored
verbatim, whatever its sign. -/
def add_plan (plans : List Plan) (f : PlanForm) (newId : Nat)
    (commitOk : Bool) : AddPlanOutcome × List Plan :=
  match f.price with
  | none => (.missingFields, plans)
  | some price =>
    if f.name = "" then (.missingFields, plans)
    else if (plans.find? (fun p => p.name == f.name)).isSome then
      (.nameExists, plans)
    else if commitOk then
      (.success, plans ++
        [{ id := newId, name := f.name, price := price,
           billingPeriod := f.billingPeriod, description := f.description,
           isActive := true }])
    else (.saveError, plans)

/-- Outcome of `delete_plan`. -/
inductive DeletePlanOutcome
  | notFound
  | planInUse
  | deleted
  | saveError
deriving DecidableEq

/-- Translation of `admin_routes.delete_plan` (lines 679-701): 404 when the id
matches no plan; Conflict (flash `plan_error_in_use`) when
`Agency.query.filter_by(plan_id=plan_id).count() > 0`, leaving everything
untouched; otherwise the plan row is hard-deleted.  The handler never writes
to the agency table, which the result therefore carries through unchanged. -/
def delete_plan (plans : List Plan) (agencies : List Agency) (planId : Nat)
    (commitOk : Bool) : DeletePlanOutcome × List Plan × List Agency :=
  match plans.find? (fun p => p.id == planId) with
  | none => (.notFound, plans, agencies)
  | some _ =>
    if 0 < agencies.countP (fun a => a.planId == some planId) then
      (.planInUse, plans, agencies)
    else if commitOk then
      (.deleted, plans.eraseP (fun p => p.id == planId), agencies)
    else (.saveError, plans, agencies)

/-- Index of the first occurrence of `x` in `ids`, the position Python's
`enumerate` pairs with it in the reorder loops. -/
def idIndex (ids : List Nat) (x : Nat) : Option Nat :=
  match ids with
  | [] => none
  | i :: rest => if i = x then some 0 else (idIndex rest x).map (· + 1)

/-! Helper lemmas shared by the claim theorems. -/

lemma le_foldl_max (xs : List Int) (x y : Int) (h : y ≤ x ∨ y ∈ xs) :
    y ≤ xs.foldl max x := by
  induction xs generalizing x with
  | nil => simpa using h
  | cons z zs ih =>
    rw [List.foldl_cons]
    rcases h with h | h
    · exact ih (max x z) (Or.inl (le_trans h (le_max_left x z)))
    · rcases List.mem_cons.mp h with h | h
      · exact ih (max x z) (Or.inl (h ▸ le_max_right x z))
      · exact ih (max x z) (Or.inr h)

lemma maxSortOrderOr0_cons (b : Agency) (bs : List Agency) :
    maxSortOrderOr0 (b :: bs) = (bs.map Agency.sortOrder).foldl max b.sortOrder :=
  rfl

lemma sortOrder_le_max (agencies : List Agency) (a : Agency)
    (ha : a ∈ agencies) : a.sortOrder ≤ maxSortOrderOr0 agencies := by
  cases agencies with
  | nil => cases ha
  | cons b bs =>
    rw [maxSortOrderOr0_cons]
    rcases List.mem_cons.mp ha with h | h
    · exact le_foldl_max _ _ _ (Or.inl (h ▸ le_rfl))
    · exact le_foldl_max _ _ _ (Or.inr (List.mem_map_of_mem Agency.sortOrder h))

lemma add_agency_success (agencies : List Agency) (f : AgencyForm)
    (logo cover : Option UploadFile) (newId : Nat)
    (hname : f.name ≠ "") (hcity : f.city ≠ "") (hweb : f.website ≠ "") :
    add_agency agencies f logo cover newId true =
      .ok (agencies ++
        [{ id := newId, name := f.name, city := f.city,
           website := normalizeWebsite f.website,
           logoFilename := uploadedField logo none,
           coverFilename := uploadedField cover none,
           description := f.description, planId := f.planId,
           isActive := true, sortOrder := maxSortOrderOr0 agencies + 1 }]) := by
  simp [add_agency, hname, hcity, hweb]

lemma edit_agency_success (agencies : List Agency) (images : List AgencyImage)
    (aid : Nat) (f : AgencyForm) (isActive : Bool)
    (logo cover : Option UploadFile) (gallery : List UploadFile)
    (nextImageId : Nat) (a0 : Agency)
    (hfind : agencies.find? (fun a => a.id == aid) = some a0)
    (hname : f.name ≠ "") (hcity : f.city ≠ "") (hweb : f.website ≠ "") :
    edit_agency agencies images aid f isActive logo cover gallery nextImageId true =
      .ok (agencies.map (fun a =>
            if a.id == aid then
              { a with
                name := f.name, city := f.city,
                website := normalizeWebsite f.website,
                description := f.description, planId := f.planId,
                isActive := isActive,
                logoFilename := uploadedField logo a.logoFilename,
                coverFilename := uploadedField cover a.coverFilename }
            else a),
          editGalleryLoop aid f.name
            ((images.filter (fun i => i.agencyId == aid)).length)
            images nextImageId gallery) := by
  simp [edit_agency, hfind, hname, hcity, hweb]

/-- C4: a successful agency creation appends one row whose sort_order is the
maximum existing sort_order plus one, the maximum being taken as 0 when no
agency row exists (so the first agency receives 0 + 1); the new sort_order is
strictly above every existing one, hence sort_order strictly increases in
creation order. -/
theorem add_agency_assigns_max_plus_one (agencies : List Agency) (f : AgencyForm)
    (logo cover : Option UploadFile) (newId : Nat)
    (hname : f.name ≠ "") (hcity : f.city ≠ "") (hweb : f.website ≠ "") :
    add_agency agencies f logo cover newId true =
      .ok (agencies ++
        [{ id := newId, name := f.name, city := f.city,
           website := normalizeWebsite f.website,
           logoFilename := uploadedField logo none,
           coverFilename := uploadedField cover none,
           description := f.description, planId := f.planId,
           isActive := true, sortOrder := maxSortOrderOr0 agencies + 1 }]) ∧
    maxSortOrderOr0 [] = 0 ∧
    ∀ a ∈ agencies, a.sortOrder < maxSortOrderOr0 agencies + 1 := by
  refine ⟨add_agency_success agencies f logo cover newId hname hcity hweb,
    rfl, fun a ha => ?_⟩
  exact Int.lt_add_one_iff.mpr (sortOrder_le_max agencies a ha)

theorem add_agency_assigns_max_plus_one_witness :
    add_agency
        [⟨7, "B", "Lyon", "https://b.example", none, none, "", none, true, 4⟩]
        ⟨"A", "Marseille", "a.example", "", none⟩ none none 2 true =
      .ok [⟨7, "B", "Lyon", "https://b.example", none, none, "", none, true, 4⟩,
           ⟨2, "A", "Marseille", "https://a.example", none, none, "", none, true, 5⟩] ∧
    (4 : Int) < 5 :=
  ⟨(add_agency_assigns_max_plus_one
      [⟨7, "B", "Lyon", "https://b.example", none, none, "", none, true, 4⟩]
      ⟨"A", "Marseille", "a.example", "", none⟩ none none 2
      (by decide) (by decide) (by decide)).1,
   (add_agency_assigns_max_plus_one
      [⟨7, "B", "Lyon", "https://b.example", none, none, "", none, true, 4⟩]
      ⟨"A", "Marseille", "a.example", "", none⟩ none none 2
      (by decide) (by decide) (by decide)).2.2
     ⟨7, "B", "Lyon", "https://b.example", none, none, "", none, true, 4⟩
     (by decide)⟩

/-- C3: deleting a plan that at least one agency references yields the
Conflict outcome with the plan table and the agency table unchanged; deleting
a plan referenced by no agency removes exactly that plan row and still leaves
the agency table unchanged. -/
theorem delete_plan_conflict_guard (plans : List Plan) (agencies : List Agency)
    (planId : Nat) (p : Plan)
    (hp : plans.find? (fun q => q.id == planId) = some p) :
    (0 < agencies.countP (fun a => a.planId == some planId) →
      delete_plan plans agencies planId true = (.planInUse, plans, agencies)) ∧
    (agencies.countP (fun a => a.planId == some planId) = 0 →
      delete_plan plans agencies planId true =
        (.deleted, plans.eraseP (fun q => q.id == planId), agencies) ∧
      (plans.eraseP (fun q => q.id == planId)).length + 1 = plans.length) := by
  constructor
  · intro h
    simp [delete_plan, hp, h]
  · intro h
    have hmem : p ∈ plans := List.mem_of_find?_eq_some hp
    have hpa := @List.find?_some Plan (fun q => q.id == planId) p plans hp
    refine ⟨?_, List.length_eraseP_add_one hmem hpa⟩
    simp [delete_plan, hp, h]

theorem delete_plan_conflict_guard_witness :
    delete_plan [⟨5, "Premium", 49, "monthly", "", true⟩]
        [⟨1, "A", "M", "https://a.example", none, none, "", some 5, true, 0⟩] 5 true =
      (.planInUse, [⟨5, "Premium", 49, "monthly", "", true⟩],
        [⟨1, "A", "M", "https://a.example", none, none, "", some 5, true, 0⟩]) ∧
    delete_plan [⟨5, "Premium", 49, "monthly", "", true⟩] [] 5 true =
      (.deleted, [], []) :=
  ⟨(delete_plan_conflict_guard [⟨5, "Premium", 49, "monthly", "", true⟩]
      [⟨1, "A", "M", "https://a.example", none, none, "", some 5, true, 0⟩]
      5 ⟨5, "Premium", 49, "monthly", "", true⟩ rfl).1 (by decide),
   ((delete_plan_conflict_guard [⟨5, "Premium", 49, "monthly", "", true⟩] []
      5 ⟨5, "Premium", 49, "monthly", "", true⟩ rfl).2 (by decide)).1⟩

/-- C7 counterexample: a plan create with the negative price -1 succeeds and
persists a plan row with price -1, refuting that a negative price yields a
ValidationError with nothing written. -/
theorem add_plan_accepts_negative_price :
    add_plan [] ⟨"Basic", some (-1), "monthly", ""⟩ 1 true =
      (.success, [⟨1, "Basic", -1, "monthly", "", true⟩]) ∧
    (-1 : Int) < 0 := by decide

/-- C7 amended: plan create rejects (and writes nothing on) a missing or
unparsable price, but performs no sign check: any parsed price, negative ones
included, is stored verbatim when name and uniqueness pass. -/
theorem add_plan_price_presence_only (plans : List Plan) (f : PlanForm)
    (newId : Nat) :
    (f.price = none → add_plan plans f newId true = (.missingFields, plans)) ∧
    (∀ pr : Int, f.price = some pr → f.name ≠ "" →
      (plans.find? (fun p => p.name == f.name)).isSome = false →
      add_plan plans f newId true =
        (.success, plans ++
          [{ id := newId, name := f.name, price := pr,
             billingPeriod := f.billingPeriod, description := f.description,
             isActive := true }])) := by
  constructor
  · intro h
    simp [add_plan, h]
  · intro pr hpr hname hfind
    simp [add_plan, hpr, hname, hfind]

theorem add_plan_price_presence_only_witness :
    add_plan [] ⟨"Basic", none, "monthly", ""⟩ 1 true = (.missingFields, []) ∧
    add_plan [] ⟨"Pro", some (-3), "monthly", ""⟩ 2 true =
      (.success, [⟨2, "Pro", -3, "monthly", "", true⟩]) :=
  ⟨(add_plan_price_presence_only [] ⟨"Basic", none, "monthly", ""⟩ 1).1 rfl,
   (add_plan_price_presence_only [] ⟨"Pro", some (-3), "monthly", ""⟩ 2).2
     (-3) rfl (by decide) (by decide)⟩

/-- C8: evaluation of `add_agency_images` at the failing input.  An agency
with zero images receives two valid images in one request; because the lazily
loaded `agency.images` collection stays cached as empty for the whole loop,
both created rows end up with is_primary = true, where the claim (and the
code's own comment, and the at-most-one-primary invariant) require only the
first. -/
theorem add_agency_images_batch_every_image_primary :
    add_agency_images
        [⟨1, "Agence", "Marseille", "https://a.example", none, none, "", none, true, 0⟩]
        [] 1 none (some [⟨"a.png", some "u1.png"⟩, ⟨"b.png", some "u2.png"⟩])
        10 true =
      (.added 2,
        [⟨10, 1, "u1.png", "Imagen de Agence", true, 0⟩,
         ⟨11, 1, "u2.png", "Imagen de Agence", true, 1⟩]) ∧
    (add_agency_images
        [⟨1, "Agence", "Marseille", "https://a.example", none, none, "", none, true, 0⟩]
        [] 1 none (some [⟨"a.png", some "u1.png"⟩, ⟨"b.png", some "u2.png"⟩])
        10 true).2.countP (fun i => i.isPrimary) = 2 := by decide

/-- C9: a successful carousel add appends one item whose sort_order equals the
number of carousel items existing before the insert; in particular three
sequential adds starting from an empty collection produce sort_order 0, 1, 2. -/
theorem add_carousel_item_sort_order_is_count (items : List CarouselItem)
    (f : UploadFile) (linkUrl altText : String) (newId : Nat) (saved : String)
    (hfn : f.filename ≠ "") (hok : allowed_file f.filename = true)
    (hsv : f.savedName = some saved) :
    add_carousel_item items (some f) linkUrl altText newId true =
      (.success, items ++
        [{ id := newId, imageFilename := saved, linkUrl := linkUrl,
           altText := altText, isActive := true,
           sortOrder := Int.ofNat items.length }]) ∧
    ((add_carousel_item
        ((add_carousel_item
            ((add_carousel_item [] (some ⟨"a.png", some "c1.png"⟩) "" "" 1 true).2)
            (some ⟨"b.png", some "c2.png"⟩) "" "" 2 true).2)
        (some ⟨"c.png", some "c3.png"⟩) "" "" 3 true).2).map CarouselItem.sortOrder
      = [0, 1, 2] := by
  constructor
  · simp [add_carousel_item, hfn, hok, hsv]
  · decide

theorem add_carousel_item_sort_order_is_count_witness :
    add_carousel_item [] (some ⟨"x.png", some "s1.png"⟩)
        "https://l.example" "alt" 9 true =
      (.success, [⟨9, "s1.png", "https://l.example", "alt", true, 0⟩]) :=
  (add_carousel_item_sort_order_is_count [] ⟨"x.png", some "s1.png"⟩
    "https://l.example" "alt" 9 "s1.png" (by decide) (by decide) rfl).1

/-- C10: a valid contact submission whose commit succeeds stores the message
row with is_read = false, and the stored state is the same whether the email
notification succeeds or fails — the email result only selects the success or
the warning outcome, and never removes the committed row. -/
theorem contact_commit_precedes_email (msgs : List ContactMessage)
    (f : ContactForm) (newId : Nat)
    (hn : f.name ≠ "") (he : f.email ≠ "") (hs : f.subject ≠ "")
    (hm : f.message ≠ "") :
    (∀ emailOk : Bool, (contact msgs f emailOk true newId).1 =
      msgs ++ [{ id := newId, name := f.name, email := f.email, phone := f.phone,
                 subject := f.subject, message := f.message, isRead := false }]) ∧
    (contact msgs f true true newId).2 = .success ∧
    (contact msgs f false true newId).2 = .emailWarning := by
  refine ⟨fun emailOk => ?_, ?_, ?_⟩ <;> simp [contact, hn, he, hs, hm]

theorem contact_commit_precedes_email_witness :
    (contact [] ⟨"N", "n@e.example", "", "Hi", "Body"⟩ false true 3).1 =
      [⟨3, "N", "n@e.example", "", "Hi", "Body", false⟩] ∧
    (contact [] ⟨"N", "n@e.example", "", "Hi", "Body"⟩ false true 3).2 =
      ContactOutcome.emailWarning :=
  ⟨(contact_commit_precedes_email [] ⟨"N", "n@e.example", "", "Hi", "Body"⟩ 3
      (by decide) (by decide) (by decide) (by decide)).1 false,
   (contact_commit_precedes_email [] ⟨"N", "n@e.example", "", "Hi", "Body"⟩ 3
      (by decide) (by decide) (by decide) (by decide)).2.2⟩

/-- C6: the website field is prefixed with https:// exactly when the supplied
value starts with neither http:// nor https:// (the two spellings covered by
the handlers' scheme test), on both the create and the edit path; the two
spec examples are included verbatim. -/
theorem website_scheme_normalization (agencies : List Agency)
    (images : List AgencyImage) (f : AgencyForm) (isActive : Bool)
    (logo cover : Option UploadFile) (gallery : List UploadFile)
    (newId aid nextImageId : Nat) (a0 : Agency)
    (hname : f.name ≠ "") (hcity : f.city ≠ "") (hweb : f.website ≠ "")
    (hfind : agencies.find? (fun a => a.id == aid) = some a0) :
    (∀ w : String, (startswith w "http://" || startswith w "https://") = false →
      normalizeWebsite w = "https://" ++ w) ∧
    (∀ w : String, (startswith w "http://" || startswith w "https://") = true →
      normalizeWebsite w = w) ∧
    normalizeWebsite "example.com" = "https://example.com" ∧
    normalizeWebsite "http://example.com" = "http://example.com" ∧
    add_agency agencies f logo cover newId true =
      .ok (agencies ++
        [{ id := newId, name := f.name, city := f.city,
           website := normalizeWebsite f.website,
           logoFilename := uploadedField logo none,
           coverFilename := uploadedField cover none,
           description := f.description, planId := f.planId,
           isActive := true, sortOrder := maxSortOrderOr0 agencies + 1 }]) ∧
    edit_agency agencies images aid f isActive logo cover gallery nextImageId true =
      .ok (agencies.map (fun a =>
            if a.id == aid then
              { a with
                name := f.name, city := f.city,
                website := normalizeWebsite f.website,
                description := f.description, planId := f.planId,
                isActive := isActive,
                logoFilename := uploadedField logo a.logoFilename,
                coverFilename := uploadedField cover a.coverFilename }
            else a),
          editGalleryLoop aid f.name
            ((images.filter (fun i => i.agencyId == aid)).length)
            images nextImageId gallery) := by
  refine ⟨fun w hw => ?_, fun w hw => ?_, by decide, by decide,
    add_agency_success agencies f logo cover newId hname hcity hweb,
    edit_agency_success agencies images aid f isActive logo cover gallery
      nextImageId a0 hfind hname hcity hweb⟩
  · simp [normalizeWebsite, hw]
  · simp [normalizeWebsite, hw]

theorem website_scheme_normalization_witness :
    normalizeWebsite "foo.example" = "https://" ++ "foo.example" ∧
    normalizeWebsite "https://ok.example" = "https://ok.example" :=
  ⟨(website_scheme_normalization
      [⟨1, "A", "M", "https://a.example", none, none, "", none, true, 0⟩] []
      ⟨"A", "M", "a.example", "", none⟩ true none none [] 2 1 5
      ⟨1, "A", "M", "https://a.example", none, none, "", none, true, 0⟩
      (by decide) (by decide) (by decide) rfl).1 "foo.example" (by decide),
   (website_scheme_normalization
      [⟨1, "A", "M", "https://a.example", none, none, "", none, true, 0⟩] []
      ⟨"A", "M", "a.example", "", none⟩ true none none [] 2 1 5
      ⟨1, "A", "M", "https://a.example", none, none, "", none, true, 0⟩
      (by decide) (by decide) (by decide) rfl).2.1 "https://ok.example"
     (by decide)⟩

lemma idIndex_eq_none (ids : List Nat) (x : Nat) (hx : x ∉ ids) :
    idIndex ids x = none := by
  induction ids with
  | nil => rfl
  | cons i rest ih =>
    have h1 : ¬ i = x := fun h => hx (h ▸ List.mem_cons_self i rest)
    have h2 : x ∉ rest := fun h => hx (List.mem_cons_of_mem i h)
    simp [idIndex, h1, ih h2]

/-- Per-element description of one pass of the reorder loop: an element whose
id occurs in `ids` gets its sort value set from the occurrence position
shifted by the loop's starting index `n`; any other element is untouched. -/
def reassignOffset {α : Type} (getId : α → Nat) (setOrd : Int → α → α)
    (ids : List Nat) (n : Nat) (a : α) : α :=
  match idIndex ids (getId a) with
  | some j => setOrd (Int.ofNat (n + j)) a
  | none => a

lemma reassignOffset_step {α : Type} (getId : α → Nat) (setOrd : Int → α → α)
    (hid : ∀ o a, getId (setOrd o a) = getId a)
    (i : Nat) (rest : List Nat) (hi : i ∉ rest) (n : Nat) (a : α) :
    reassignOffset getId setOrd rest (n + 1)
      (if getId a == i then setOrd (Int.ofNat n) a else a) =
    reassignOffset getId setOrd (i :: rest) n a := by
  by_cases hgi : getId a = i
  · rw [if_pos (beq_iff_eq.mpr hgi)]
    unfold reassignOffset
    rw [hid, hgi, idIndex_eq_none rest i hi]
    have hidx : idIndex (i :: rest) i = some 0 := by simp [idIndex]
    rw [hidx]
    simp
  · rw [if_neg (by simp [hgi])]
    unfold reassignOffset
    have hne : ¬ i = getId a := fun h => hgi h.symm
    have hidx : idIndex (i :: rest) (getId a) =
        (idIndex rest (getId a)).map (· + 1) := by simp [idIndex, hne]
    rw [hidx]
    cases h : idIndex rest (getId a) with
    | none => rfl
    | some j =>
      have : n + 1 + j = n + (j + 1) := by omega
      simp [this]

lemma reorderLoop_eq_map {α : Type} (getId : α → Nat) (setOrd : Int → α → α)
    (hid : ∀ o a, getId (setOrd o a) = getId a) :
    ∀ (ids : List Nat), ids.Nodup → ∀ (items : List α) (n : Nat),
    reorderLoop getId setOrd items n ids =
      items.map (reassignOffset getId setOrd ids n) := by
  intro ids
  induction ids with
  | nil =>
    intro _ items n
    show items = _
    exact (Eq.trans (List.map_congr_left fun a _ => (rfl :
      reassignOffset getId setOrd [] n a = a)) (List.map_id' items)).symm
  | cons i rest ih =>
    intro hnd items n
    rw [List.nodup_cons] at hnd
    show reorderLoop getId setOrd
      (items.map fun a => if getId a == i then setOrd (Int.ofNat n) a else a)
      (n + 1) rest = _
    rw [ih hnd.2, List.map_map]
    exact List.map_congr_left
      (fun a _ => reassignOffset_step getId setOrd hid i rest hnd.1 n a)

/-- C5: a reorder of the agency collection, and likewise of the carousel
collection, with a duplicate-free id list sets the sort_order of each listed
id that names an existing row to the id's position in the list, leaves every
row whose id is not listed untouched, ignores listed ids matching no row, and
reports success. -/
theorem reorder_assigns_position_in_list (agencies : List Agency)
    (items : List CarouselItem) (ids : List Nat) (hnd : ids.Nodup) :
    reorder_agencies agencies ids true =
      .ok (agencies.map (fun a =>
        match idIndex ids a.id with
        | some j => { a with sortOrder := Int.ofNat j }
        | none => a)) ∧
    reorder_carousel items ids true =
      .ok (items.map (fun c =>
        match idIndex ids c.id with
        | some j => { c with sortOrder := Int.ofNat j }
        | none => c)) := by
  constructor
  · show Except.ok _ = _
    rw [reorderLoop_eq_map Agency.id (fun o a => { a with sortOrder := o })
      (fun _ _ => rfl) ids hnd agencies 0]
    refine congrArg Except.ok (List.map_congr_left fun a _ => ?_)
    unfold reassignOffset
    cases h : idIndex ids a.id with
    | some j => simp
    | none => rfl
  · show Except.ok _ = _
    rw [reorderLoop_eq_map CarouselItem.id (fun o c => { c with sortOrder := o })
      (fun _ _ => rfl) ids hnd items 0]
    refine congrArg Except.ok (List.map_congr_left fun c _ => ?_)
    unfold reassignOffset
    cases h : idIndex ids c.id with
    | some j => simp
    | none => rfl

theorem reorder_assigns_position_in_list_witness :
    reorder_agencies
        [⟨1, "a", "c", "w", none, none, "", none, true, 5⟩,
         ⟨2, "b", "c", "w", none, none, "", none, true, 7⟩,
         ⟨3, "c", "c", "w", none, none, "", none, true, 9⟩] [3, 1, 99] true =
      .ok [⟨1, "a", "c", "w", none, none, "", none, true, 1⟩,
           ⟨2, "b", "c", "w", none, none, "", none, true, 7⟩,
           ⟨3, "c", "c", "w", none, none, "", none, true, 0⟩] ∧
    reorder_carousel [⟨4, "i.png", "", "", true, 2⟩] [4] true =
      .ok [⟨4, "i.png", "", "", true, 0⟩] :=
  ⟨(reorder_assigns_position_in_list
      [⟨1, "a", "c", "w", none, none, "", none, true, 5⟩,
       ⟨2, "b", "c", "w", none, none, "", none, true, 7⟩,
       ⟨3, "c", "c", "w", none, none, "", none, true, 9⟩]
      [⟨4, "i.png", "", "", true, 2⟩] [3, 1, 99] (by decide)).1,
   (reorder_assigns_position_in_list
      [⟨1, "a", "c", "w", none, none, "", none, true, 5⟩]
      [⟨4, "i.png", "", "", true, 2⟩] [4] (by decide)).2⟩

/-- C2: with distinct image ids, set-primary on an existing image succeeds and
maps the image table so that among the target's agency exactly one image is
primary, every primary of that agency is the target itself, and the rows of
every other agency are left completely unchanged (as a filtered sublist). -/
theorem set_primary_exactly_one (images : List AgencyImage) (imageId : Nat)
    (t : AgencyImage)
    (ht : images.find? (fun i => i.id == imageId) = some t)
    (hnd : (images.map AgencyImage.id).Nodup) :
    set_primary_agency_image images imageId true =
      (.success, images.map fun i =>
        if i.id == imageId then { i with isPrimary := true }
        else if i.agencyId == t.agencyId then { i with isPrimary := false }
        else i) ∧
    (set_primary_agency_image images imageId true).2.countP
      (fun i => i.agencyId == t.agencyId && i.isPrimary) = 1 ∧
    (∀ i ∈ (set_primary_agency_image images imageId true).2,
      (i.agencyId == t.agencyId && i.isPrimary) = true → i.id = imageId) ∧
    (set_primary_agency_image images imageId true).2.filter
        (fun i => !(i.agencyId == t.agencyId)) =
      images.filter (fun i => !(i.agencyId == t.agencyId)) := by
  have heq : set_primary_agency_image images imageId true =
      (.success, images.map fun i =>
        if i.id == imageId then { i with isPrimary := true }
        else if i.agencyId == t.agencyId then { i with isPrimary := false }
        else i) := by
    simp [set_primary_agency_image, ht]
  have hmem_t : t ∈ images := List.mem_of_find?_eq_some ht
  have htid : t.id = imageId := by
    have h := @List.find?_some _ (fun i => i.id == imageId) t images ht
    exact beq_iff_eq.mp h
  have hinj : ∀ i ∈ images, i.id = imageId → i = t := fun i hi hidq =>
    List.inj_on_of_nodup_map hnd hi hmem_t (by rw [hidq, htid])
  have hnd' : images.Nodup := List.Nodup.of_map AgencyImage.id hnd
  refine ⟨heq, ?_, ?_, ?_⟩
  · rw [heq]
    show (images.map _).countP _ = 1
    rw [List.countP_map]
    rw [List.countP_congr (q := fun i => i.id == imageId) ?_]
    · rw [List.countP_congr (q := fun i => i == t) ?_]
      · rw [← List.count_eq_countP]
        exact List.count_eq_one_of_mem hnd' hmem_t
      · intro x hx
        constructor
        · intro h
          exact beq_iff_eq.mpr (hinj x hx (beq_iff_eq.mp h))
        · intro h
          rw [beq_iff_eq.mp h]
          exact beq_iff_eq.mpr htid
    · intro x hx
      by_cases hxi : x.id = imageId
      · have hb : (x.id == imageId) = true := beq_iff_eq.mpr hxi
        have hxt : x = t := hinj x hx hxi
        simp [Function.comp, hb, hxt, htid]
      · have hb : (x.id == imageId) = false := by simp [hxi]
        by_cases hag : x.agencyId = t.agencyId
        · simp [Function.comp, hb, hag, hxi]
        · simp [Function.comp, hb, hag, hxi]
  · rw [heq]
    intro i hi hp
    obtain ⟨x, hx, rfl⟩ := List.mem_map.mp hi
    by_cases hxi : (x.id == imageId) = true
    · simp only [if_pos hxi]
      exact beq_iff_eq.mp hxi
    · exfalso
      simp only [if_neg hxi] at hp
      by_cases hag : (x.agencyId == t.agencyId) = true
      · simp [hag] at hp
      · simp [hag] at hp
  · rw [heq]
    show (images.map _).filter _ = _
    rw [List.filter_map]
    have hfil : images.filter ((fun i => !(i.agencyId == t.agencyId)) ∘ fun i =>
        if i.id == imageId then { i with isPrimary := true }
        else if i.agencyId == t.agencyId then { i with isPrimary := false }
        else i) = images.filter (fun i => !(i.agencyId == t.agencyId)) := by
      refine List.filter_congr fun x _ => ?_
      by_cases hxi : (x.id == imageId) = true
      · simp [Function.comp, hxi]
      · by_cases hag : x.agencyId = t.agencyId
        · simp [Function.comp, hxi, hag]
        · simp [Function.comp, hxi, hag]
    rw [hfil]
    refine Eq.trans (List.map_congr_left fun x hx => ?_) (List.map_id' _)
    rw [List.mem_filter] at hx
    have hag : x.agencyId ≠ t.agencyId := by
      have h2 := hx.2
      simp at h2
      exact h2
    have hxi : (x.id == imageId) = false := by
      rw [beq_eq_false_iff_ne]
      intro hxe
      exact hag (by rw [hinj x hx.1 hxe])
    rw [if_neg (by simp [hxi]), if_neg (by simp [hag])]

theorem set_primary_exactly_one_witness :
    set_primary_agency_image
        [⟨1, 1, "a.png", "", true, 0⟩, ⟨2, 1, "b.png", "", false, 1⟩,
         ⟨3, 2, "c.png", "", true, 0⟩] 2 true =
      (.success,
        [⟨1, 1, "a.png", "", false, 0⟩, ⟨2, 1, "b.png", "", true, 1⟩,
         ⟨3, 2, "c.png", "", true, 0⟩]) ∧
    (set_primary_agency_image
        [⟨1, 1, "a.png", "", true, 0⟩, ⟨2, 1, "b.png", "", false, 1⟩,
         ⟨3, 2, "c.png", "", true, 0⟩] 2 true).2.countP
      (fun i => i.agencyId == 1 && i.isPrimary) = 1 :=
  ⟨(set_primary_exactly_one
      [⟨1, 1, "a.png", "", true, 0⟩, ⟨2, 1, "b.png", "", false, 1⟩,
       ⟨3, 2, "c.png", "", true, 0⟩] 2 ⟨2, 1, "b.png", "", false, 1⟩
      rfl (by decide)).1,
   (set_primary_exactly_one
      [⟨1, 1, "a.png", "", true, 0⟩, ⟨2, 1, "b.png", "", false, 1⟩,
       ⟨3, 2, "c.png", "", true, 0⟩] 2 ⟨2, 1, "b.png", "", false, 1⟩
      rfl (by decide)).2.1⟩

lemma publicOrderLe_trans : ∀ x y z : Agency × Plan,
    publicOrderLe x y = true → publicOrderLe y z = true →
    publicOrderLe x z = true := by
  intro x y z hxy hyz
  simp only [publicOrderLe, Bool.or_eq_true, Bool.and_eq_true,
    decide_eq_true_eq, beq_iff_eq] at hxy hyz ⊢
  rcases hxy with hxy | ⟨hxy1, hxy2⟩
  · rcases hyz with hyz | ⟨hyz1, hyz2⟩
    · exact Or.inl (lt_trans hyz hxy)
    · exact Or.inl (hyz1 ▸ hxy)
  · rcases hyz with hyz | ⟨hyz1, hyz2⟩
    · exact Or.inl (hxy1 ▸ hyz)
    · exact Or.inr ⟨hxy1.trans hyz1, le_trans hxy2 hyz2⟩
lemma publicOrderLe_total : ∀ x y : Agency × Plan,
    (publicOrderLe x y || publicOrderLe y x) = true := by
  intro x y
  simp only [publicOrderLe, Bool.or_eq_true, Bool.and_eq_true,
    decide_eq_true_eq, beq_iff_eq]
  rcases lt_trichotomy x.2.name y.2.name with h | h | h
  · exact Or.inr (Or.inl h)
  · rcases le_total x.1.sortOrder y.1.sortOrder with h2 | h2
    · exact Or.inl (Or.inr ⟨h, h2⟩)
    · exact Or.inr (Or.inr ⟨h.symm, h2⟩)
  · exact Or.inl (Or.inl h)

/-- C1 counterexample: a persisted state holding one active agency whose plan
reference is NULL and no plans; the homepage query inner-joins the plan table,
so the active agency does not appear in the listing, refuting the claim that
an active agency with no plan still appears. -/
theorem listForPublic_omits_planless_active :
    ((⟨1, "Agence Sud", "Marseille", "https://a.example", none, none, "", none,
        true, 0⟩ : Agency).isActive = true) ∧
    (⟨1, "Agence Sud", "Marseille", "https://a.example", none, none, "", none,
        true, 0⟩ : Agency) ∉
      listForPublic
        [⟨1, "Agence Sud", "Marseille", "https://a.example", none, none, "",
          none, true, 0⟩] [] := by
  refine ⟨rfl, ?_⟩
  have h : listForPublic
      [⟨1, "Agence Sud", "Marseille", "https://a.example", none, none, "",
        none, true, 0⟩] [] = [] := by
    simp [listForPublic, listForPublicSorted, joinActivePlan]
  rw [h]
  exact List.not_mem_nil _

/-- C1 amended: the public listing contains exactly the active agencies whose
plan reference matches an existing plan row (an active agency with a NULL or
dangling plan reference is dropped by the inner join), and the joined rows are
ordered by plan name descending, then sort_order ascending. -/
theorem listForPublic_active_joined (agencies : List Agency)
    (plans : List Plan) :
    (∀ a : Agency, a ∈ listForPublic agencies plans ↔
      (a ∈ agencies ∧ a.isActive = true ∧ ∃ p ∈ plans, a.planId = some p.id)) ∧
    listForPublic agencies plans =
      (listForPublicSorted agencies plans).map Prod.fst ∧
    (listForPublicSorted agencies plans).Pairwise
      (fun x y => publicOrderLe x y = true) := by
  refine ⟨fun a => ?_, rfl,
    List.sorted_mergeSort publicOrderLe_trans publicOrderLe_total _⟩
  constructor
  · intro hmem
    have hmem2 : a ∈ (joinActivePlan agencies plans).map Prod.fst :=
      (((List.mergeSort_perm (joinActivePlan agencies plans)
        publicOrderLe).map Prod.fst).mem_iff).mp hmem
    obtain ⟨pr, hpr, rfl⟩ := List.mem_map.mp hmem2
    obtain ⟨x, hx, hgx⟩ := List.mem_filterMap.mp hpr
    cases hpid : x.planId with
    | none => simp [hpid] at hgx
    | some pid =>
      cases hfind : plans.find? (fun p => p.id == pid) with
      | none => simp [hpid, hfind] at hgx
      | some p =>
        by_cases hact : x.isActive = true
        · simp only [hpid, hfind, if_pos hact, Option.some.injEq] at hgx
          subst hgx
          refine ⟨hx, hact, p, List.mem_of_find?_eq_some hfind, ?_⟩
          have hpide := @List.find?_some _ (fun q => q.id == pid) p plans hfind
          rw [hpid, beq_iff_eq.mp hpide]
        · simp [hpid, hfind, hact] at hgx
  · rintro ⟨hx, hact, p, hp, hpid⟩
    have hsome : (plans.find? (fun q => q.id == p.id)).isSome = true :=
      List.find?_isSome.mpr ⟨p, hp, beq_iff_eq.mpr rfl⟩
    cases hfind : plans.find? (fun q => q.id == p.id) with
    | none => rw [hfind] at hsome; exact absurd hsome (by simp)
    | some p0 =>
      have hpr : (a, p0) ∈ joinActivePlan agencies plans := by
        unfold joinActivePlan
        refine List.mem_filterMap.mpr ⟨a, hx, ?_⟩
        simp only [hpid, hfind, if_pos hact]
      have : a ∈ (joinActivePlan agencies plans).map Prod.fst :=
        List.mem_map.mpr ⟨(a, p0), hpr, rfl⟩
      exact (((List.mergeSort_perm (joinActivePlan agencies plans)
        publicOrderLe).map Prod.fst).mem_iff).mpr this

